import Mathlib

/-!
Shallow embedding of the qahlvm tree-walking interpreter.

Source of truth: `src/ast.rs` (expression and statement trees) and
`src/vm.rs` (values, heap objects, reference-count tracker, evaluator,
statement executor, call protocol, garbage-collection strategies).

Modelling conventions:
* Rust `HashMap` is modelled by an association list with first-match
  lookup, replace-in-place insert and remove-first semantics; only the
  map view of these operations is observable in the source.
* Rust panics (`panic!`, `unwrap`, `unreachable!`, `unimplemented!`,
  arithmetic aborts, slice index misses) are modelled as the error
  results of the `Err` type; an error carries the machine state at the
  moment of the abort, since a panic stops the run right there.
* `i32` is modelled by unbounded `Int` (no claim exercises wrap-around);
  the `as usize` / `as i32` casts are modelled by the corresponding
  modular conversions.  `f32` is modelled by `Float`; no claim depends on
  a floating-point value, only on the kind of an operand.
* Recursion through the heap of mutually recursive interpreter functions
  is bounded by an explicit fuel parameter, decremented on entry to each
  interpreter function; `Err.outOfFuel` marks exhaustion of the bound and
  corresponds to no behaviour of the source.
* Native (built-in) functions perform console I/O and are outside the
  embedded fragment (spec declares them external collaborators); the
  registry therefore holds defined functions.  The `GcApproach.Custom`
  variant carries an external caller-supplied hook and is likewise
  outside the fragment; no claim mentions either.
-/

abbrev Str := String
abbrev RBool := Bool
abbrev I32 := Int
abbrev F32 := Float

/-- Models the Rust cast `i as usize` applied to an `i32` (64-bit target):
reduction modulo 2^64 of the sign-extended value. -/
def intToUsize (i : I32) : Nat := (i % (2 ^ 64 : Int)).toNat

/-- Models the Rust cast `n as u32` applied to an `i32`. -/
def intToU32 (i : I32) : Nat := (i % (2 ^ 32 : Int)).toNat

/-- Models the Rust cast `n as i32` applied to a `usize`. -/
def usizeToI32 (n : Nat) : I32 :=
  let m : Nat := n % 2 ^ 32
  if m < 2 ^ 31 then (m : Int) else (m : Int) - 2 ^ 32

/-- Error outcomes.  Each constructor names one panic or failure site of
the source, grouped by the spec's error taxonomy (spec section 7):
the `unimplemented!()` arms of operator dispatch are the spec's
`TypeMismatch`, the `unwrap` panics on lookups are the Unknown* errors,
and the remaining constructors are internal invariant violations or host
panics. -/
inductive Err where
  | outOfFuel
  | unknownVariable
  | unknownFunction
  | unknownObject
  | unknownField
  | duplicateObject
  | arityMismatch
  | typeMismatch
  | noReturnValue
  | shadowsGlobal
  | untrackedDecrement
  | counterUnderflow
  | indexOutOfBounds
  | divideByZero
  | expectedIntAddress
  | expectedObjectId
  | unimplementedCase
  | breakOutsideLoop
  | continueOutsideLoop
  | returnOutsideFunction
  | internalFrameMissing
  deriving DecidableEq

/-- Runtime values (`Value` in vm.rs). -/
inductive Value where
  | Int (v : I32)
  | Bool (b : Bool)
  | Float (f : F32)
  | String (s : Str)
  | Array (elems : List Value)
  | Object (id : Nat)

/-- Expression nodes (`Eval` in ast.rs). -/
inductive Eval where
  | Int (v : I32)
  | Bool (b : Bool)
  | Float (f : F32)
  | String (s : Str)
  | Array (elems : List Eval)
  | Object (e : Eval)
  | GetMember (target : Eval) (field : Str)
  | VarRef (name : Str)
  | FnCall (name : Str) (args : List Eval)
  | Add (l r : Eval)
  | Sub (l r : Eval)
  | Mul (l r : Eval)
  | Div (l r : Eval)
  | Mod (l r : Eval)
  | Pow (l r : Eval)
  | Eq (l r : Eval)
  | Ne (l r : Eval)
  | Gt (l r : Eval)
  | Ge (l r : Eval)
  | Lt (l r : Eval)
  | Le (l r : Eval)
  | And (l r : Eval)
  | Or (l r : Eval)
  | Not (e : Eval)

/-- Statement nodes (`Node` in ast.rs). -/
inductive Node where
  | Assign (name : Str) (val : Eval)
  | Unassign (name : Str)
  | SetMember (target : Eval) (field : Str) (val : Eval)
  | CreateObject (addr : Eval) (fields : List (Str × Eval))
  | DeleteObject (addr : Eval)
  | Conditional (branches : List (Eval × List Node)) (elseBlock : List Node)
  | Loop (body : List Node)
  | WhileLoop (cond : Eval) (body : List Node)
  | For (name : Str) (iter : Eval) (body : List Node)
  | Break
  | Continue
  | FnDef (name : Str) (params : List Str) (body : List Node)
  | Return (val : Eval)
  | FnCall (name : Str) (args : List Eval)

/-- Heap record (`Object` in vm.rs): a mapping from field name to value. -/
structure Object where
  fields : List (Str × Value)

/-- User-defined callable (`DefinedFunction` in vm.rs). -/
structure DefinedFunction where
  name : Str
  args : List Str
  body : List Node
  has_variadic : Bool

def DefinedFunction.args_len (f : DefinedFunction) : Nat := f.args.length

def DefinedFunction.minimum_args_len (f : DefinedFunction) : Nat :=
  if f.has_variadic then f.args.length - 1 else f.args.length

def DefinedFunction.is_variadic (f : DefinedFunction) : RBool := f.has_variadic

/-- Garbage-collection strategy (`GcApproach` in vm.rs).  The source's
`Custom` variant carries a caller-supplied hook, an external collaborator
outside the embedded fragment; no claim concerns it. -/
inductive GcApproach where
  | None
  | ReferenceCounting

/-- The machine state (`VirtualMachine` in vm.rs). -/
structure VirtualMachine where
  objects : List (Nat × Object)
  objects_in_use : List (Nat × Nat)
  functions : List (Str × DefinedFunction)
  global_variables : List (Str × Value)
  locals : List (List (Str × Value))
  local_frame : Option (List (Str × Value))
  gc_approach : GcApproach

/-- Outcome of an interpreter step: a result or an abort, each carrying
the machine state at that moment. -/
inductive Res (α : Type) where
  | ok (a : α) (s : VirtualMachine)
  | err (e : Err) (s : VirtualMachine)

def Res.bind {α β : Type} (r : Res α) (f : α → VirtualMachine → Res β) : Res β :=
  match r with
  | .ok a s => f a s
  | .err e s => .err e s

def Res.errKind {α : Type} : Res α → Option Err
  | .ok _ _ => none
  | .err e _ => some e

def Res.state {α : Type} : Res α → VirtualMachine
  | .ok _ s => s
  | .err _ s => s

def Res.isErr {α : Type} : Res α → Bool
  | .ok _ _ => false
  | .err _ _ => true

/-- Association-list lookup: the map view of `HashMap::get`. -/
def alFind {κ α : Type} [DecidableEq κ] : List (κ × α) → κ → Option α
  | [], _ => none
  | (k', v) :: rest, k => if k' = k then some v else alFind rest k

/-- Association-list insert-or-replace: the map view of `HashMap::insert`. -/
def alInsert {κ α : Type} [DecidableEq κ] : List (κ × α) → κ → α → List (κ × α)
  | [], k, v => [(k, v)]
  | (k', v') :: rest, k, v =>
    if k' = k then (k, v) :: rest else (k', v') :: alInsert rest k v

/-- Association-list removal: the map view of `HashMap::remove`. -/
def alRemove {κ α : Type} [DecidableEq κ] : List (κ × α) → κ → List (κ × α)
  | [], _ => []
  | (k', v') :: rest, k => if k' = k then rest else (k', v') :: alRemove rest k

def alContains {κ α : Type} [DecidableEq κ] (l : List (κ × α)) (k : κ) : Bool :=
  (alFind l k).isSome

mutual
/-- Models `Value::as_eval` (vm.rs 218-227). -/
def Value.as_eval : Value → Eval
  | .Int v => .Int v
  | .Bool b => .Bool b
  | .Float f => .Float f
  | .String s => .String s
  | .Object id => .Object (.Int (usizeToI32 id))
  | .Array l => .Array (valuesAsEval l)

def valuesAsEval : List Value → List Eval
  | [] => []
  | v :: rest => Value.as_eval v :: valuesAsEval rest
end

/-- Models `Eval::is_an_operator` (ast.rs 97-116). -/
def Eval.is_an_operator : Eval → RBool
  | .Add _ _ => true
  | .Sub _ _ => true
  | .Mul _ _ => true
  | .Div _ _ => true
  | .Mod _ _ => true
  | .Pow _ _ => true
  | .Eq _ _ => true
  | .Ne _ _ => true
  | .Gt _ _ => true
  | .Ge _ _ => true
  | .Lt _ _ => true
  | .Le _ _ => true
  | .And _ _ => true
  | .Or _ _ => true
  | .Not _ => true
  | _ => false

/-- Models `Eval::deref_var_ref` (ast.rs 64-76): a bare variable reference
is replaced by the value found in the supplied map (the operator arms pass
`self.global_variables` only); the `unwrap` on a missing name is a panic. -/
def deref_var_ref (e : Eval) (map : List (Str × Value)) : Except Err Eval :=
  match e with
  | .VarRef name =>
    match alFind map name with
    | some v => .ok (Value.as_eval v)
    | none => .error .unknownVariable
  | _ => .ok e

/-- Models `Eval::deref_object_member` (ast.rs 77-96). -/
def deref_object_member (e : Eval) (objects : List (Nat × Object))
    (vars : List (Str × Value)) : Except Err Eval :=
  match e with
  | .GetMember idLoc name =>
    let idRes : Except Err Nat :=
      match idLoc with
      | .Int id => .ok (intToUsize id)
      | .String varName =>
        match alFind vars varName with
        | some (Value.Object id) => .ok id
        | some _ => .error .expectedObjectId
        | none => .error .unknownVariable
      | _ => .error .expectedObjectId
    match idRes with
    | .error k => .error k
    | .ok id =>
      match alFind objects id with
      | none => .error .unknownObject
      | some obj =>
        match alFind obj.fields name with
        | none => .error .unknownField
        | some v => .ok (Value.as_eval v)
  | _ => .ok e

/-- The four in-place normalization steps every binary operator arm of
`VirtualMachine::eval` performs, in the source's order: `deref_var_ref` on
the left then the right operand, then `deref_object_member` on the left
then the right (vm.rs, e.g. lines 376-380). -/
def norm_pair (l r : Eval) (objects : List (Nat × Object))
    (globals : List (Str × Value)) : Except Err (Eval × Eval) :=
  match deref_var_ref l globals with
  | .error k => .error k
  | .ok l1 =>
    match deref_var_ref r globals with
    | .error k => .error k
    | .ok r1 =>
      match deref_object_member l1 objects globals with
      | .error k => .error k
      | .ok l2 =>
        match deref_object_member r1 objects globals with
        | .error k => .error k
        | .ok r2 => .ok (l2, r2)

/-- Dispatch of `Eval::Add` after normalization (vm.rs 384-389); the
`unimplemented!()` arm is the spec's `TypeMismatch`. -/
def applyAdd : Eval → Eval → Except Err Value
  | .Int a, .Int b => .ok (.Int (a + b))
  | .Float a, .Float b => .ok (.Float (a + b))
  | .String a, .String b => .ok (.String (a ++ b))
  | _, _ => .error .typeMismatch

def applySub : Eval → Eval → Except Err Value
  | .Int a, .Int b => .ok (.Int (a - b))
  | .Float a, .Float b => .ok (.Float (a - b))
  | _, _ => .error .typeMismatch

def applyMul : Eval → Eval → Except Err Value
  | .Int a, .Int b => .ok (.Int (a * b))
  | .Float a, .Float b => .ok (.Float (a * b))
  | _, _ => .error .typeMismatch

/-- Dispatch of `Eval::Div` (vm.rs 427-431).  Rust `i32` division
truncates toward zero (`Int.tdiv`) and the division `l / r` is an
unguarded host panic when `r == 0`, modelled `Err.divideByZero`. -/
def applyDiv : Eval → Eval → Except Err Value
  | .Int a, .Int b => if b = 0 then .error .divideByZero else .ok (.Int (a.tdiv b))
  | .Float a, .Float b => .ok (.Float (a / b))
  | _, _ => .error .typeMismatch

/-- Models the Rust `f32` remainder in kind only; no claim depends on a
floating-point payload, so the host rounding of `fmod` is not reproduced. -/
def floatMod (a b : F32) : F32 := a - b * (a / b).floor

/-- Dispatch of `Eval::Mod` (vm.rs 441-445).  Rust `%` on `i32` is the
truncated remainder (`Int.tmod`) and panics on a zero divisor. -/
def applyMod : Eval → Eval → Except Err Value
  | .Int a, .Int b => if b = 0 then .error .divideByZero else .ok (.Int (a.tmod b))
  | .Float a, .Float b => .ok (.Float (floatMod a b))
  | _, _ => .error .typeMismatch

def applyPow : Eval → Eval → Except Err Value
  | .Int a, .Int b => .ok (.Int (a ^ intToU32 b))
  | .Float a, .Float b => .ok (.Float (a.pow b))
  | _, _ => .error .typeMismatch

def applyEq : Eval → Eval → Except Err Value
  | .Int a, .Int b => .ok (.Bool (a == b))
  | .Float a, .Float b => .ok (.Bool (a == b))
  | .String a, .String b => .ok (.Bool (a == b))
  | _, _ => .error .typeMismatch

def applyNe : Eval → Eval → Except Err Value
  | .Int a, .Int b => .ok (.Bool (a != b))
  | .Float a, .Float b => .ok (.Bool (a != b))
  | .String a, .String b => .ok (.Bool (a != b))
  | _, _ => .error .typeMismatch

def applyGt : Eval → Eval → Except Err Value
  | .Int a, .Int b => .ok (.Bool (decide (b < a)))
  | .Float a, .Float b => .ok (.Bool (decide (b < a)))
  | .String a, .String b => .ok (.Bool (decide (b < a)))
  | _, _ => .error .typeMismatch

def applyGe : Eval → Eval → Except Err Value
  | .Int a, .Int b => .ok (.Bool (decide (b ≤ a)))
  | .Float a, .Float b => .ok (.Bool (decide (b ≤ a)))
  | .String a, .String b => .ok (.Bool (decide (b ≤ a)))
  | _, _ => .error .typeMismatch

def applyLt : Eval → Eval → Except Err Value
  | .Int a, .Int b => .ok (.Bool (decide (a < b)))
  | .Float a, .Float b => .ok (.Bool (decide (a < b)))
  | .String a, .String b => .ok (.Bool (decide (a < b)))
  | _, _ => .error .typeMismatch

def applyLe : Eval → Eval → Except Err Value
  | .Int a, .Int b => .ok (.Bool (decide (a ≤ b)))
  | .Float a, .Float b => .ok (.Bool (decide (a ≤ b)))
  | .String a, .String b => .ok (.Bool (decide (a ≤ b)))
  | _, _ => .error .typeMismatch

/-- Dispatch of `Eval::And` (vm.rs 559-562): defined for booleans only. -/
def applyAnd : Eval → Eval → Except Err Value
  | .Bool a, .Bool b => .ok (.Bool (a && b))
  | _, _ => .error .typeMismatch

/-- Dispatch of `Eval::Or` (vm.rs 572-575): defined for booleans only. -/
def applyOr : Eval → Eval → Except Err Value
  | .Bool a, .Bool b => .ok (.Bool (a || b))
  | _, _ => .error .typeMismatch

def applyNot : Eval → Except Err Value
  | .Bool b => .ok (.Bool (!b))
  | _ => .error .typeMismatch

/-- Models the comparison `self.eval(cond) == Value::Bool(true)` used by
conditionals and while-loops: `PartialEq` on the `Value` enum holds
against `Bool(true)` exactly for that variant and payload. -/
def Value.isTrueBool : Value → RBool
  | .Bool true => true
  | _ => false

/-- Result of `slice::binary_search_by_key`: index of a hit, or the
insertion point keeping order. -/
inductive SearchResult where
  | found (i : Nat)
  | notFound (i : Nat)
  deriving DecidableEq

/-- Models `slice::binary_search_by_key` over the id-keyed tracker.  On a
slice sorted strictly by key — the only states the tracker reaches, see
the sorted-invariant theorem — binary search has a unique specified
answer (`Ok` at the matching index, else `Err` at the insertion point);
this linear scan computes that same answer, walking from offset `off`. -/
def searchAux : List (Nat × Nat) → Nat → Nat → SearchResult
  | [], _, off => .notFound off
  | (k, _) :: rest, key, off =>
    if key < k then .notFound off
    else if key = k then .found off
    else searchAux rest key (off + 1)

/-- Table update performed by `VirtualMachine::inc_use_count` on an
object value (vm.rs 667-682): bump the hit entry, or insert a fresh entry
of count 1 at the insertion point. -/
def incTable (tbl : List (Nat × Nat)) (id : Nat) : List (Nat × Nat) :=
  match searchAux tbl id 0 with
  | .found i =>
    match tbl[i]? with
    | some (k, c) => tbl.set i (k, c + 1)
    | none => tbl
  | .notFound i => tbl.insertIdx i (id, 1)

/-- Models `VirtualMachine::inc_use_count` (vm.rs 667-682); non-object
values are ignored. -/
def inc_use_count (vm : VirtualMachine) (val : Value) : VirtualMachine :=
  match val with
  | .Object id => { vm with objects_in_use := incTable vm.objects_in_use id }
  | _ => vm

/-- Table update performed by `VirtualMachine::dec_use_count`
(vm.rs 652-665): decrement the hit entry; a missing entry is the
`unreachable!()` panic, and a `u32` decrement of zero is a host underflow
panic. -/
def decTable (tbl : List (Nat × Nat)) (id : Nat) : Except Err (List (Nat × Nat)) :=
  match searchAux tbl id 0 with
  | .found i =>
    match tbl[i]? with
    | some (k, c) =>
      if c = 0 then .error .counterUnderflow else .ok (tbl.set i (k, c - 1))
    | none => .error .internalFrameMissing
  | .notFound _ => .error .untrackedDecrement

/-- Models `VirtualMachine::dec_use_count` (vm.rs 652-665). -/
def dec_use_count (vm : VirtualMachine) (val : Value) : Res Unit :=
  match val with
  | .Object id =>
    match decTable vm.objects_in_use id with
    | .ok t => .ok () { vm with objects_in_use := t }
    | .error k => .err k vm
  | _ => .ok () vm

/-- Models `VirtualMachine::reference_count` (vm.rs 606-627): process one
collected name — decrement its object's tracker entry, delete object and
entry on reaching zero, then unbind the name; non-object values are just
unbound.  The `unwrap` on a missing name and the `unreachable!()` on an
untracked id are panics. -/
def reference_count (vm : VirtualMachine) (variable_name : Str) : Res Unit :=
  match alFind vm.global_variables variable_name with
  | none => .err .unknownVariable vm
  | some (Value.Object id) =>
    match searchAux vm.objects_in_use id 0 with
    | .found i =>
      match vm.objects_in_use[i]? with
      | none => .err .internalFrameMissing vm
      | some (k, c) =>
        if c = 0 then .err .counterUnderflow vm
        else
          let c' := c - 1
          let vm1 :=
            if c' = 0 then
              { vm with objects := alRemove vm.objects id,
                        objects_in_use := vm.objects_in_use.eraseIdx i }
            else { vm with objects_in_use := vm.objects_in_use.set i (k, c') }
          .ok () { vm1 with global_variables := alRemove vm1.global_variables variable_name }
    | .notFound _ => .err .untrackedDecrement vm
  | some _ => .ok () { vm with global_variables := alRemove vm.global_variables variable_name }

/-- The name loop of `VirtualMachine::reference_count_vec` (vm.rs 630-632). -/
def reference_count_loop : List Str → VirtualMachine → Res Unit
  | [], vm => .ok () vm
  | n :: rest, vm =>
    Res.bind (reference_count vm n) fun _ vm1 => reference_count_loop rest vm1

/-- Models `VirtualMachine::reference_count_vec` (vm.rs 629-638): process
every collected name, then the cleanup pass removes from the heap every
object whose tracker entry stands at zero (the entries themselves stay). -/
def reference_count_vec (vm : VirtualMachine) (variable_names : List Str) : Res Unit :=
  Res.bind (reference_count_loop variable_names vm) fun _ vm1 =>
    let to_remove := (vm1.objects_in_use.filter (fun p => p.2 == 0)).map (fun p => p.1)
    .ok () { vm1 with objects := to_remove.foldl (fun objs id => alRemove objs id) vm1.objects }

/-- Models `VirtualMachine::run_gc` (vm.rs 640-650) for the embedded
strategies. -/
def run_gc (vm : VirtualMachine) (var_names : List Str) : Res Unit :=
  match vm.gc_approach with
  | .None => .ok () vm
  | .ReferenceCounting => reference_count_vec vm var_names

/-- Fixed name of the variadic collector parameter (vm.rs 9). -/
def VARIADIC_ARG_NAME : Str := "varargs"

def pushAssigned (assigned : List Str) : Option Str → List Str
  | some n => assigned ++ [n]
  | none => assigned

/-- Outcome of one pass over a loop body: a `Break` was met, or the pass
completed (naturally or through `Continue`), looping again. -/
inductive PassOut where
  | broke
  | completed
  deriving DecidableEq

/-- Field lookup shared by the tail of the `Eval::GetMember` arm
(vm.rs 600-601): `unwrap` panics model `UnknownObject` / `UnknownField`. -/
def getMemberAt (vm : VirtualMachine) (id : Nat) (member : Str) : Res Value :=
  match alFind vm.objects id with
  | none => .err .unknownObject vm
  | some obj =>
    match alFind obj.fields member with
    | none => .err .unknownField vm
    | some v => .ok v vm

/-- The field loop of `Node::DeleteObject` (vm.rs 795-797): decrement the
use count of every value the removed record held. -/
def decFields : VirtualMachine → List (Str × Value) → Res Unit
  | vm, [] => .ok () vm
  | vm, (_, v) :: rest =>
    Res.bind (dec_use_count vm v) fun _ vm1 => decFields vm1 rest

mutual

/-- Models `VirtualMachine::eval` (vm.rs 327-604). -/
def eval : Nat → VirtualMachine → Eval → Res Value
  | 0, vm, _ => .err .outOfFuel vm
  | fuel + 1, vm, e =>
    match e with
    | .Int v => .ok (.Int v) vm
    | .Bool b => .ok (.Bool b) vm
    | .Float f => .ok (.Float f) vm
    | .String s => .ok (.String s) vm
    | .Array arr =>
      Res.bind (evalList fuel vm arr) fun vs vm1 => .ok (.Array vs) vm1
    | .Object obj =>
      match obj with
      | .Int id => .ok (.Object (intToUsize id)) vm
      | _ => .err .unimplementedCase vm
    | .VarRef name =>
      match vm.local_frame with
      | some loc =>
        match alFind loc name with
        | some v => .ok v vm
        | none =>
          match alFind vm.global_variables name with
          | some v => .ok v vm
          | none => .err .unknownVariable vm
      | none =>
        match alFind vm.global_variables name with
        | some v => .ok v vm
        | none => .err .unknownVariable vm
    | .FnCall func_name args =>
      match alFind vm.functions func_name with
      | none => .err .unknownFunction vm
      | some function =>
        let vm1 := { vm with functions := alRemove vm.functions func_name }
        if function.args_len != args.length && !function.is_variadic then
          .err .arityMismatch vm1
        else
          Res.bind (callFn fuel vm1 function args) fun ret vm2 =>
            match ret with
            | none => .err .noReturnValue vm2
            | some v => .ok v { vm2 with functions := alInsert vm2.functions func_name function }
    | .Add l r =>
      match norm_pair l r vm.objects vm.global_variables with
      | .error k => .err k vm
      | .ok (l1, r1) =>
        Res.bind (reduceOp fuel vm l1) fun l2 vm1 =>
        Res.bind (reduceOp fuel vm1 r1) fun r2 vm2 =>
        match applyAdd l2 r2 with
        | .ok v => .ok v vm2
        | .error k => .err k vm2
    | .Sub l r =>
      match norm_pair l r vm.objects vm.global_variables with
      | .error k => .err k vm
      | .ok (l1, r1) =>
        Res.bind (reduceOp fuel vm l1) fun l2 vm1 =>
        Res.bind (reduceOp fuel vm1 r1) fun r2 vm2 =>
        match applySub l2 r2 with
        | .ok v => .ok v vm2
        | .error k => .err k vm2
    | .Mul l r =>
      match norm_pair l r vm.objects vm.global_variables with
      | .error k => .err k vm
      | .ok (l1, r1) =>
        Res.bind (reduceOp fuel vm l1) fun l2 vm1 =>
        Res.bind (reduceOp fuel vm1 r1) fun r2 vm2 =>
        match applyMul l2 r2 with
        | .ok v => .ok v vm2
        | .error k => .err k vm2
    | .Div l r =>
      match norm_pair l r vm.objects vm.global_variables with
      | .error k => .err k vm
      | .ok (l1, r1) =>
        Res.bind (reduceOp fuel vm l1) fun l2 vm1 =>
        Res.bind (reduceOp fuel vm1 r1) fun r2 vm2 =>
        match applyDiv l2 r2 with
        | .ok v => .ok v vm2
        | .error k => .err k vm2
    | .Mod l r =>
      match norm_pair l r vm.objects vm.global_variables with
      | .error k => .err k vm
      | .ok (l1, r1) =>
        Res.bind (reduceOp fuel vm l1) fun l2 vm1 =>
        Res.bind (reduceOp fuel vm1 r1) fun r2 vm2 =>
        match applyMod l2 r2 with
        | .ok v => .ok v vm2
        | .error k => .err k vm2
    | .Pow l r =>
      match norm_pair l r vm.objects vm.global_variables with
      | .error k => .err k vm
      | .ok (l1, r1) =>
        Res.bind (reduceOp fuel vm l1) fun l2 vm1 =>
        Res.bind (reduceOp fuel vm1 r1) fun r2 vm2 =>
        match applyPow l2 r2 with
        | .ok v => .ok v vm2
        | .error k => .err k vm2
    | .Eq l r =>
      match norm_pair l r vm.objects vm.global_variables with
      | .error k => .err k vm
      | .ok (l1, r1) =>
        Res.bind (reduceOp fuel vm l1) fun l2 vm1 =>
        Res.bind (reduceOp fuel vm1 r1) fun r2 vm2 =>
        match applyEq l2 r2 with
        | .ok v => .ok v vm2
        | .error k => .err k vm2
    | .Ne l r =>
      match norm_pair l r vm.objects vm.global_variables with
      | .error k => .err k vm
      | .ok (l1, r1) =>
        Res.bind (reduceOp fuel vm l1) fun l2 vm1 =>
        Res.bind (reduceOp fuel vm1 r1) fun r2 vm2 =>
        match applyNe l2 r2 with
        | .ok v => .ok v vm2
        | .error k => .err k vm2
    | .Gt l r =>
      match norm_pair l r vm.objects vm.global_variables with
      | .error k => .err k vm
      | .ok (l1, r1) =>
        Res.bind (reduceOp fuel vm l1) fun l2 vm1 =>
        Res.bind (reduceOp fuel vm1 r1) fun r2 vm2 =>
        match applyGt l2 r2 with
        | .ok v => .ok v vm2
        | .error k => .err k vm2
    | .Ge l r =>
      match norm_pair l r vm.objects vm.global_variables with
      | .error k => .err k vm
      | .ok (l1, r1) =>
        Res.bind (reduceOp fuel vm l1) fun l2 vm1 =>
        Res.bind (reduceOp fuel vm1 r1) fun r2 vm2 =>
        match applyGe l2 r2 with
        | .ok v => .ok v vm2
        | .error k => .err k vm2
    | .Lt l r =>
      match norm_pair l r vm.objects vm.global_variables with
      | .error k => .err k vm
      | .ok (l1, r1) =>
        Res.bind (reduceOp fuel vm l1) fun l2 vm1 =>
        Res.bind (reduceOp fuel vm1 r1) fun r2 vm2 =>
        match applyLt l2 r2 with
        | .ok v => .ok v vm2
        | .error k => .err k vm2
    | .Le l r =>
      match norm_pair l r vm.objects vm.global_variables with
      | .error k => .err k vm
      | .ok (l1, r1) =>
        Res.bind (reduceOp fuel vm l1) fun l2 vm1 =>
        Res.bind (reduceOp fuel vm1 r1) fun r2 vm2 =>
        match applyLe l2 r2 with
        | .ok v => .ok v vm2
        | .error k => .err k vm2
    | .And l r =>
      match norm_pair l r vm.objects vm.global_variables with
      | .error k => .err k vm
      | .ok (l1, r1) =>
        Res.bind (reduceOp fuel vm l1) fun l2 vm1 =>
        Res.bind (reduceOp fuel vm1 r1) fun r2 vm2 =>
        match applyAnd l2 r2 with
        | .ok v => .ok v vm2
        | .error k => .err k vm2
    | .Or l r =>
      match norm_pair l r vm.objects vm.global_variables with
      | .error k => .err k vm
      | .ok (l1, r1) =>
        Res.bind (reduceOp fuel vm l1) fun l2 vm1 =>
        Res.bind (reduceOp fuel vm1 r1) fun r2 vm2 =>
        match applyOr l2 r2 with
        | .ok v => .ok v vm2
        | .error k => .err k vm2
    | .Not inner =>
      match deref_var_ref inner vm.global_variables with
      | .error k => .err k vm
      | .ok e1 =>
        match deref_object_member e1 vm.objects vm.global_variables with
        | .error k => .err k vm
        | .ok e2 =>
          Res.bind (reduceOp fuel vm e2) fun e3 vm1 =>
          match applyNot e3 with
          | .ok v => .ok v vm1
          | .error k => .err k vm1
    | .GetMember target member =>
      Res.bind (eval fuel vm target) fun objLoc vm1 =>
        match objLoc with
        | .Int id => getMemberAt vm1 (intToUsize id) member
        | .String varName =>
          match alFind vm1.global_variables varName with
          | some (Value.Object id) => getMemberAt vm1 id member
          | some _ => .err .expectedObjectId vm1
          | none => .err .unknownVariable vm1
        | _ => .err .expectedObjectId vm1

/-- Element-wise evaluation of `Eval::Array` (vm.rs 333). -/
def evalList : Nat → VirtualMachine → List Eval → Res (List Value)
  | 0, vm, _ => .err .outOfFuel vm
  | _ + 1, vm, [] => .ok [] vm
  | fuel + 1, vm, e :: rest =>
    Res.bind (eval fuel vm e) fun v vm1 =>
    Res.bind (evalList fuel vm1 rest) fun vs vm2 => .ok (v :: vs) vm2

/-- The eager reduction step of operand normalization: an operand that is
itself an operator expression is evaluated and replaced by the literal
form of its value (vm.rs, e.g. lines 381-382). -/
def reduceOp : Nat → VirtualMachine → Eval → Res Eval
  | fuel, vm, e =>
    if e.is_an_operator then
      match fuel with
      | 0 => .err .outOfFuel vm
      | fuel + 1 => Res.bind (eval fuel vm e) fun v vm1 => .ok (Value.as_eval v) vm1
    else .ok e vm

/-- Models `DefinedFunction::call` (vm.rs 49-87): push the caller's local
frame if one is active, make a fresh empty frame current, bind the
declared parameters in order, collect variadic extras, run the body, and
pop the frame stack on the way out. -/
def callFn : Nat → VirtualMachine → DefinedFunction → List Eval → Res (Option Value)
  | 0, vm, _, _ => .err .outOfFuel vm
  | fuel + 1, vm, f, args =>
    let vm1 :=
      match vm.local_frame with
      | some l => { vm with locals := l :: vm.locals, local_frame := some [] }
      | none => { vm with local_frame := some [] }
    Res.bind (bindParams fuel vm1 f.args args) fun _ vm2 =>
    Res.bind
      (if f.has_variadic then
        Res.bind (evalList fuel vm2 (args.drop f.args.length)) fun vs vm3 =>
          match vm3.local_frame with
          | some loc =>
            .ok () { vm3 with local_frame := some (alInsert loc VARIADIC_ARG_NAME (.Array vs)) }
          | none => .err .internalFrameMissing vm3
      else .ok () vm2) fun _ vm4 =>
    Res.bind (runBody fuel vm4 f.body) fun ret vm5 =>
      .ok ret { vm5 with local_frame := vm5.locals.head?, locals := vm5.locals.tail }

/-- The parameter-binding loop of `DefinedFunction::call` (vm.rs 56-59):
each declared name is bound, in order, to the value of `args[index]`,
evaluated against the already-replaced local frame; an exhausted argument
vector is the slice-index host panic. -/
def bindParams : Nat → VirtualMachine → List Str → List Eval → Res Unit
  | 0, vm, _, _ => .err .outOfFuel vm
  | _ + 1, vm, [], _ => .ok () vm
  | fuel + 1, vm, n :: ns, args =>
    match args with
    | [] => .err .indexOutOfBounds vm
    | a :: rest =>
      Res.bind (eval fuel vm a) fun v vm1 =>
        match vm1.local_frame with
        | some loc => bindParams fuel { vm1 with local_frame := some (alInsert loc n v) } ns rest
        | none => .err .internalFrameMissing vm1

/-- The body loop of `DefinedFunction::call` (vm.rs 71-82): a top-level
`Return` evaluates its expression and stops the body; every other node is
dispatched to `single_run`. -/
def runBody : Nat → VirtualMachine → List Node → Res (Option Value)
  | 0, vm, _ => .err .outOfFuel vm
  | _ + 1, vm, [] => .ok none vm
  | fuel + 1, vm, node :: rest =>
    match node with
    | .Return val => Res.bind (eval fuel vm val) fun v vm1 => .ok (some v) vm1
    | _ => Res.bind (single_run fuel vm node) fun _ vm1 => runBody fuel vm1 rest

/-- Models `VirtualMachine::single_run` (vm.rs 726-862). -/
def single_run : Nat → VirtualMachine → Node → Res (Option Str)
  | 0, vm, _ => .err .outOfFuel vm
  | fuel + 1, vm, node =>
    match node with
    | .Assign var_name var_val =>
      match vm.local_frame with
      | some _ =>
        if alContains vm.global_variables var_name then .err .shadowsGlobal vm
        else
          Res.bind (eval fuel vm var_val) fun v vm1 =>
            match vm1.local_frame with
            | some loc => .ok none { vm1 with local_frame := some (alInsert loc var_name v) }
            | none => .err .internalFrameMissing vm1
      | none =>
        Res.bind (eval fuel vm var_val) fun v vm1 =>
          .ok none { vm1 with global_variables := alInsert vm1.global_variables var_name v }
    | .Unassign var_name =>
      match vm.local_frame with
      | some loc =>
        match alFind loc var_name with
        | some v =>
          Res.bind (dec_use_count { vm with local_frame := some (alRemove loc var_name) } v)
            fun _ vm1 => .ok none vm1
        | none =>
          match alFind vm.global_variables var_name with
          | some v =>
            Res.bind
              (dec_use_count
                { vm with global_variables := alRemove vm.global_variables var_name } v)
              fun _ vm1 => .ok none vm1
          | none => .err .unknownVariable vm
      | none =>
        match alFind vm.global_variables var_name with
        | some v =>
          Res.bind
            (dec_use_count
              { vm with global_variables := alRemove vm.global_variables var_name } v)
            fun _ vm1 => .ok none vm1
        | none => .err .unknownVariable vm
    | .CreateObject addr fields =>
      Res.bind (eval fuel vm addr) fun objLoc vm1 =>
        match objLoc with
        | .Int id =>
          let ptr := intToUsize id
          if alContains vm1.objects ptr then .err .duplicateObject vm1
          else
            Res.bind (evalFields fuel vm1 fields []) fun value vm2 =>
              .ok none { vm2 with objects := alInsert vm2.objects ptr (Object.mk value) }
        | _ => .err .expectedIntAddress vm1
    | .DeleteObject addr =>
      Res.bind (eval fuel vm addr) fun objLoc vm1 =>
        match objLoc with
        | .Int id =>
          let ptr := intToUsize id
          match alFind vm1.objects ptr with
          | none => .ok none vm1
          | some old =>
            Res.bind (decFields { vm1 with objects := alRemove vm1.objects ptr } old.fields)
              fun _ vm2 => .ok none vm2
        | _ => .err .expectedIntAddress vm1
    | .Conditional conditions else_block =>
      Res.bind (runConds fuel vm conditions) fun ran vm1 =>
        if !ran && !else_block.isEmpty then
          Res.bind (multi_run fuel vm1 else_block) fun _ vm2 => .ok none vm2
        else .ok none vm1
    | .Loop nodes => Res.bind (loop_run fuel vm nodes []) fun _ vm1 => .ok none vm1
    | .WhileLoop condition body =>
      Res.bind (while_loop fuel vm condition body []) fun _ vm1 => .ok none vm1
    | .For _ _ _ => .err .unimplementedCase vm
    | .Break => .err .breakOutsideLoop vm
    | .Continue => .err .continueOutsideLoop vm
    | .FnDef _ _ _ => .err .unimplementedCase vm
    | .Return _ => .err .returnOutsideFunction vm
    | .FnCall name args =>
      match alFind vm.functions name with
      | none => .err .unknownFunction vm
      | some function =>
        let vm1 := { vm with functions := alRemove vm.functions name }
        if function.args_len != args.length && !function.is_variadic then
          .err .arityMismatch vm1
        else
          Res.bind (callFn fuel vm1 function args) fun _ vm2 =>
            .ok none { vm2 with functions := alInsert vm2.functions name function }
    | .SetMember target member val =>
      Res.bind (eval fuel vm target) fun objLoc vm1 =>
        match objLoc with
        | .Int id => setMemberAt fuel vm1 (intToUsize id) member val
        | .String varName =>
          match alFind vm1.global_variables varName with
          | some (Value.Object id) => setMemberAt fuel vm1 id member val
          | some _ => .err .expectedObjectId vm1
          | none => .err .unknownVariable vm1
        | _ => .err .expectedObjectId vm1

/-- Tail of the `Node::SetMember` arm (vm.rs 854-858): evaluate the new
value, raise its use count, and insert-or-overwrite the field. -/
def setMemberAt : Nat → VirtualMachine → Nat → Str → Eval → Res (Option Str)
  | 0, vm, _, _, _ => .err .outOfFuel vm
  | fuel + 1, vm, id, member, val =>
    Res.bind (eval fuel vm val) fun v vm1 =>
      let vm2 := inc_use_count vm1 v
      match alFind vm2.objects id with
      | none => .err .unknownObject vm2
      | some obj =>
        .ok none
          { vm2 with objects := alInsert vm2.objects id (Object.mk (alInsert obj.fields member v)) }

/-- The field-initializer loop of `Node::CreateObject` (vm.rs 776-780):
evaluate each initializer in order, raising the use count of object
values, and build the field map. -/
def evalFields : Nat → VirtualMachine → List (Str × Eval) → List (Str × Value) →
    Res (List (Str × Value))
  | 0, vm, _, _ => .err .outOfFuel vm
  | _ + 1, vm, [], acc => .ok acc vm
  | fuel + 1, vm, (n, e) :: rest, acc =>
    Res.bind (eval fuel vm e) fun v vm1 =>
      evalFields fuel (inc_use_count vm1 v) rest (alInsert acc n v)

/-- The branch loop of `Node::Conditional` (vm.rs 802-809): run the body
of the first branch whose condition compares equal to `Bool(true)`. -/
def runConds : Nat → VirtualMachine → List (Eval × List Node) → Res Bool
  | 0, vm, _ => .err .outOfFuel vm
  | _ + 1, vm, [] => .ok false vm
  | fuel + 1, vm, (c, body) :: rest =>
    Res.bind (eval fuel vm c) fun v vm1 =>
      if v.isTrueBool then
        Res.bind (multi_run fuel vm1 body) fun _ vm2 => .ok true vm2
      else runConds fuel vm1 rest

/-- One pass over a loop body (the inner `for` of `loop_run` and
`while_loop`, vm.rs 687-700 and 707-720): a top-level `Break` signals the
loop to stop, a top-level `Continue` ends the pass. -/
def loopPass : Nat → VirtualMachine → List Node → List Str → Res (PassOut × List Str)
  | 0, vm, _, _ => .err .outOfFuel vm
  | _ + 1, vm, [], assigned => .ok (.completed, assigned) vm
  | fuel + 1, vm, node :: rest, assigned =>
    match node with
    | .Break => .ok (.broke, assigned) vm
    | .Continue => .ok (.completed, assigned) vm
    | _ =>
      Res.bind (single_run fuel vm node) fun varOpt vm1 =>
        loopPass fuel vm1 rest (pushAssigned assigned varOpt)

/-- Models `VirtualMachine::loop_run` (vm.rs 684-702): repeat the body
until a `Break`, then run the collection step on the accumulated names. -/
def loop_run : Nat → VirtualMachine → List Node → List Str → Res Unit
  | 0, vm, _, _ => .err .outOfFuel vm
  | fuel + 1, vm, nodes, assigned =>
    Res.bind (loopPass fuel vm nodes assigned) fun out vm1 =>
      match out.1 with
      | .broke => run_gc vm1 out.2
      | .completed => loop_run fuel vm1 nodes out.2

/-- Models `VirtualMachine::while_loop` (vm.rs 704-724). -/
def while_loop : Nat → VirtualMachine → Eval → List Node → List Str → Res Unit
  | 0, vm, _, _, _ => .err .outOfFuel vm
  | fuel + 1, vm, condition, body, assigned =>
    Res.bind (eval fuel vm condition) fun v vm1 =>
      if v.isTrueBool then
        Res.bind (loopPass fuel vm1 body assigned) fun out vm2 =>
          match out.1 with
          | .broke => run_gc vm2 out.2
          | .completed => while_loop fuel vm2 condition body out.2
      else run_gc vm1 assigned

/-- The statement loop shared by `multi_run` and `run`
(vm.rs 864-871, 875-881): run each node, collecting reported names. -/
def runSeq : Nat → VirtualMachine → List Node → List Str → Res (List Str)
  | 0, vm, _, _ => .err .outOfFuel vm
  | _ + 1, vm, [], assigned => .ok assigned vm
  | fuel + 1, vm, node :: rest, assigned =>
    Res.bind (single_run fuel vm node) fun varOpt vm1 =>
      runSeq fuel vm1 rest (pushAssigned assigned varOpt)

/-- Models `VirtualMachine::multi_run` (vm.rs 864-873). -/
def multi_run : Nat → VirtualMachine → List Node → Res Unit
  | 0, vm, _ => .err .outOfFuel vm
  | fuel + 1, vm, nodes =>
    Res.bind (runSeq fuel vm nodes []) fun assigned vm1 => run_gc vm1 assigned

end

/-- Models `VirtualMachine::run` (vm.rs 875-893); the trailing
unreclaimed-allocation report is console output only. -/
def run (fuel : Nat) (vm : VirtualMachine) (nodes : List Node) : Res Unit :=
  Res.bind (runSeq fuel vm nodes []) fun assigned vm1 => run_gc vm1 assigned

/-- Models `VirtualMachine::new` (vm.rs 297-313) for the embedded
fragment: empty state with the chosen strategy.  The seeded built-in
natives perform console I/O and are outside the fragment. -/
def VirtualMachine.new (gc : GcApproach) : VirtualMachine :=
  { objects := [], objects_in_use := [], functions := [],
    global_variables := [], locals := [], local_frame := none, gc_approach := gc }

/-! Concrete machines and programs used by counterexamples and witnesses. -/

def na : Str := "a"
def nf : Str := "f"
def np : Str := "p"
def nq : Str := "q"
def nx : Str := "x"
def ny : Str := "y"

/-- A fresh machine under the reference-counting strategy. -/
def vmRC : VirtualMachine := VirtualMachine.new .ReferenceCounting

/-- Program storing one object's reference in two plain variables and then
unassigning both (the variable half of the reference-counting test
property). -/
def progVars : List Node :=
  [ .CreateObject (.Int 1) [],
    .Assign nx (.Object (.Int 1)),
    .Assign ny (.Object (.Int 1)),
    .Unassign nx,
    .Unassign ny ]

/-- Program storing one object's reference in fields of two other heap
records and then deleting both containing records. -/
def progBoth : List Node :=
  [ .CreateObject (.Int 1) [],
    .CreateObject (.Int 2) [(na, .Object (.Int 1))],
    .CreateObject (.Int 3) [(na, .Object (.Int 1))],
    .DeleteObject (.Int 2),
    .DeleteObject (.Int 3) ]

/-- The same program with only one of the two containing records
deleted. -/
def progOne : List Node := progBoth.take 4

/-- A machine in which the name `x` is bound both in the active local
frame (to 10) and in the global mapping (to 2). -/
def vmC2 : VirtualMachine :=
  { vmRC with local_frame := some [(nx, .Int 10)], global_variables := [(nx, .Int 2)] }

/-- A variadic function of one declared parameter. -/
def fVariadic : DefinedFunction :=
  { name := nf, args := [na], body := [], has_variadic := true }

/-- A machine whose registry holds only `fVariadic`. -/
def vmC3 : VirtualMachine := { vmRC with functions := [(nf, fVariadic)] }

/-- The keys of an association list are distinct — automatic for every
state reached through `HashMap`-backed updates. -/
abbrev keysNodup {κ α : Type} (l : List (κ × α)) : Prop := (l.map Prod.fst).Nodup

/-- Shift of a search outcome by one position. -/
def SearchResult.bump : SearchResult → SearchResult
  | .found i => .found (i + 1)
  | .notFound i => .notFound (i + 1)

/-- The tracker invariant: entries strictly ascending in object id (hence
at most one entry per id). -/
abbrev TableSorted (tbl : List (Nat × Nat)) : Prop :=
  tbl.Pairwise (fun a b => a.1 < b.1)

/-! Theorems.  Generic lemmas about the embedded operations come first,
then one theorem per claim (with its witness or counterexample). -/

theorem alFind_alInsert_self {κ α : Type} [DecidableEq κ] (l : List (κ × α)) (k : κ) (v : α) :
    alFind (alInsert l k v) k = some v := by
  induction l with
  | nil => simp [alInsert, alFind]
  | cons p rest ih =>
    by_cases h : p.1 = k
    · simp [alInsert, h, alFind]
    · simpa [alInsert, h, alFind] using ih

theorem mem_keys_of_alFind {κ α : Type} [DecidableEq κ] {l : List (κ × α)} {k : κ} {v : α}
    (h : alFind l k = some v) : k ∈ l.map Prod.fst := by
  induction l with
  | nil => simp [alFind] at h
  | cons q rest ih =>
    simp only [alFind] at h
    by_cases hq : q.1 = k
    · simp [hq]
    · simp only [if_neg hq] at h
      simpa using Or.inr (ih h)

theorem alFind_alRemove_self {κ α : Type} [DecidableEq κ] (l : List (κ × α)) (k : κ)
    (h : keysNodup l) : alFind (alRemove l k) k = none := by
  induction l with
  | nil => simp [alRemove, alFind]
  | cons p rest ih =>
    simp only [keysNodup, List.map_cons, List.nodup_cons] at h
    by_cases hk : p.1 = k
    · cases hres : alFind rest k with
      | none => simp [alRemove, hk, hres]
      | some v => exact absurd (mem_keys_of_alFind hres) (hk ▸ h.1)
    · simpa [alRemove, hk, alFind] using ih h.2

theorem eval_Int (fuel : Nat) (vm : VirtualMachine) (z : I32) :
    eval (fuel + 1) vm (.Int z) = .ok (.Int z) vm := rfl

theorem intToUsize_coe (a : Nat) (h : a < 2 ^ 64) : intToUsize (a : Int) = a := by
  simp only [intToUsize]
  omega

theorem reduceOp_literal (fuel : Nat) (vm : VirtualMachine) (e : Eval)
    (h : e.is_an_operator = false) : reduceOp fuel vm e = .ok e vm := by
  cases fuel <;> simp [reduceOp, h]

theorem reduceOp_operator (fuel : Nat) (vm : VirtualMachine) (e : Eval)
    (h : e.is_an_operator = true) :
    reduceOp (fuel + 1) vm e =
      Res.bind (eval fuel vm e) fun v vm1 => .ok (Value.as_eval v) vm1 := by
  simp [reduceOp, h]

/-- **C1 counterexample.**  The claim quantifies over bindings that are
"fields or variables".  Taking the two bindings to be plain variables:
the program creates the object at address 1, assigns its reference to the
variables `x` and `y`, and unassigns both.  Plain assignment never
increments the use count, so the first unassignment's decrement finds the
id untracked and aborts in `dec_use_count`'s `unreachable!()` — and at
that point the object is still heap-resident, contradicting the claimed
reclamation. -/
theorem c1_two_variable_bindings_fault :
    (run 30 vmRC progVars).errKind = some .untrackedDecrement ∧
      alContains (run 30 vmRC progVars).state.objects 1 = true := by
  constructor
  · decide
  · decide

/-- **C1 amended.**  Under the reference-counting strategy, storing the
object's reference in two fields of heap records does behave as claimed:
after deleting both containing records the final collection point
reclaims the object (heap empty), while deleting only one of them leaves
the object heap-resident. -/
theorem c1_two_field_bindings_reclaim :
    (run 30 vmRC progBoth).errKind = none ∧
      (run 30 vmRC progBoth).state.objects.isEmpty = true ∧
      (run 30 vmRC progOne).errKind = none ∧
      alContains (run 30 vmRC progOne).state.objects 1 = true := by
  refine ⟨by decide, by decide, by decide, by decide⟩

/-- **C7.**  Assignment scoping: with a local frame active, assigning a
name that exists globally aborts with the shadow-collision panic and the
state is untouched; otherwise the name is bound in the local frame.  With
no local frame active the name is bound in the global mapping, and the
rebind silently overwrites: the fresh value is what lookup then finds. -/
theorem c7_assign_scoping :
    (∀ (fuel : Nat) (vm : VirtualMachine) (loc : List (Str × Value)) (name : Str) (e : Eval),
      vm.local_frame = some loc → alContains vm.global_variables name = true →
      single_run (fuel + 1) vm (.Assign name e) = .err .shadowsGlobal vm) ∧
    (∀ (fuel : Nat) (vm vm' : VirtualMachine) (loc loc' : List (Str × Value)) (name : Str)
      (e : Eval) (v : Value),
      vm.local_frame = some loc → alContains vm.global_variables name = false →
      eval fuel vm e = .ok v vm' → vm'.local_frame = some loc' →
      single_run (fuel + 1) vm (.Assign name e) =
        .ok none { vm' with local_frame := some (alInsert loc' name v) }) ∧
    (∀ (fuel : Nat) (vm vm' : VirtualMachine) (name : Str) (e : Eval) (v : Value),
      vm.local_frame = none → eval fuel vm e = .ok v vm' →
      single_run (fuel + 1) vm (.Assign name e) =
        .ok none { vm' with global_variables := alInsert vm'.global_variables name v } ∧
      alFind (alInsert vm'.global_variables name v) name = some v) := by
  refine ⟨?_, ?_, ?_⟩
  · intro fuel vm loc name e hl hc
    simp [single_run, hl, hc]
  · intro fuel vm vm' loc loc' name e v hl hc heval hl'
    simp [single_run, hl, hc, heval, Res.bind, hl']
  · intro fuel vm vm' name e v hl heval
    exact ⟨by simp [single_run, hl, heval, Res.bind], alFind_alInsert_self _ _ _⟩

def vmW7 : VirtualMachine :=
  { vmRC with local_frame := some [(ny, .Int 0)], global_variables := [(nx, .Int 5)] }

def vmG7 : VirtualMachine := { vmRC with global_variables := [(nx, .Int 5)] }

theorem c7_assign_scoping_witness :
    single_run 3 vmW7 (.Assign nx (.Int 1)) = .err .shadowsGlobal vmW7 ∧
      single_run 3 vmW7 (.Assign ny (.Int 1)) =
        .ok none { vmW7 with local_frame := some (alInsert [(ny, .Int 0)] ny (.Int 1)) } ∧
      (single_run 3 vmG7 (.Assign nx (.Int 7)) =
        .ok none { vmG7 with global_variables := alInsert vmG7.global_variables nx (.Int 7) } ∧
      alFind (alInsert vmG7.global_variables nx (.Int 7)) nx = some (.Int 7)) :=
  ⟨c7_assign_scoping.1 2 vmW7 [(ny, .Int 0)] nx (.Int 1) rfl (by decide),
   c7_assign_scoping.2.1 2 vmW7 vmW7 [(ny, .Int 0)] [(ny, .Int 0)] ny (.Int 1) (.Int 1)
     rfl (by decide) rfl rfl,
   c7_assign_scoping.2.2 2 vmG7 vmG7 nx (.Int 7) (.Int 7) rfl rfl⟩

/-- **C8.**  Object lifecycle at the statement executor: create at an
occupied address aborts with `DuplicateObject` and the machine — heap
included — is exactly as before; delete of a non-resident address is a
silent no-op; delete of a resident address removes the record and then
decrements the use count of every field value the record held (the
object-valued ones, through `dec_use_count`); and on a tracked entry that
decrement takes the counter from `c` to `c - 1` in place. -/
theorem c8_object_lifecycle :
    (∀ (fuel : Nat) (vm : VirtualMachine) (a : Nat) (fields : List (Str × Eval)),
      a < 2 ^ 64 → alContains vm.objects a = true →
      single_run (fuel + 2) vm (.CreateObject (.Int (a : Int)) fields) =
        .err .duplicateObject vm) ∧
    (∀ (fuel : Nat) (vm : VirtualMachine) (a : Nat),
      a < 2 ^ 64 → alFind vm.objects a = none →
      single_run (fuel + 2) vm (.DeleteObject (.Int (a : Int))) = .ok none vm) ∧
    (∀ (fuel : Nat) (vm vm2 : VirtualMachine) (a : Nat) (r : Object),
      a < 2 ^ 64 → alFind vm.objects a = some r →
      decFields { vm with objects := alRemove vm.objects a } r.fields = .ok () vm2 →
      single_run (fuel + 2) vm (.DeleteObject (.Int (a : Int))) = .ok none vm2) ∧
    (∀ (tbl : List (Nat × Nat)) (id i k c : Nat),
      searchAux tbl id 0 = .found i → tbl[i]? = some (k, c) → c ≠ 0 →
      decTable tbl id = .ok (tbl.set i (k, c - 1))) := by
  refine ⟨?_, ?_, ?_, ?_⟩
  · intro fuel vm a fields ha hc
    simp [single_run, eval_Int, Res.bind, intToUsize_coe a ha, hc]
  · intro fuel vm a ha hfind
    simp [single_run, eval_Int, Res.bind, intToUsize_coe a ha, hfind]
  · intro fuel vm vm2 a r ha hfind hdec
    simp [single_run, eval_Int, Res.bind, intToUsize_coe a ha, hfind, hdec]
  · intro tbl id i k c hsearch hget hc
    simp [decTable, hsearch, hget, hc]

def objW : Object := Object.mk [(na, .Int 5)]

def vmW8 : VirtualMachine := { vmRC with objects := [(1, objW)], objects_in_use := [(4, 2)] }

theorem c8_object_lifecycle_witness :
    single_run 5 vmW8 (.CreateObject (.Int 1) []) = .err .duplicateObject vmW8 ∧
      single_run 5 vmW8 (.DeleteObject (.Int 2)) = .ok none vmW8 ∧
      single_run 5 vmW8 (.DeleteObject (.Int 1)) =
        .ok none { vmW8 with objects := alRemove vmW8.objects 1 } ∧
      decTable [(4, 2)] 4 = .ok ([(4, 2)].set 0 (4, 1)) :=
  ⟨c8_object_lifecycle.1 3 vmW8 1 [] (by decide) (by decide),
   c8_object_lifecycle.2.1 3 vmW8 2 (by decide) rfl,
   c8_object_lifecycle.2.2.1 3 vmW8 { vmW8 with objects := alRemove vmW8.objects 1 } 1 objW
     (by decide) rfl rfl,
   c8_object_lifecycle.2.2.2 [(4, 2)] 4 0 4 2 (by decide) rfl (by decide)⟩

/-- **C10.**  For integer operands, `div` and `mod` with right operand
`Int 0` abort with the unguarded host division-by-zero panic — a distinct
outcome from `TypeMismatch` — while a non-zero right operand succeeds
with Rust's truncated division or remainder; `(float, float)` operands
also dispatch successfully; and the unmatched-operand arm (the
`unimplemented!()` modelled as `TypeMismatch`) is unreachable for
`(int, int)` and `(float, float)` pairs. -/
theorem c10_division_by_zero :
    (∀ (fuel : Nat) (vm : VirtualMachine) (a : I32),
      eval (fuel + 1) vm (.Div (.Int a) (.Int 0)) = .err .divideByZero vm ∧
      eval (fuel + 1) vm (.Mod (.Int a) (.Int 0)) = .err .divideByZero vm) ∧
    (∀ (fuel : Nat) (vm : VirtualMachine) (a b : I32), b ≠ 0 →
      eval (fuel + 1) vm (.Div (.Int a) (.Int b)) = .ok (.Int (a.tdiv b)) vm ∧
      eval (fuel + 1) vm (.Mod (.Int a) (.Int b)) = .ok (.Int (a.tmod b)) vm) ∧
    (∀ (fuel : Nat) (vm : VirtualMachine) (x y : F32),
      eval (fuel + 1) vm (.Div (.Float x) (.Float y)) = .ok (.Float (x / y)) vm ∧
      eval (fuel + 1) vm (.Mod (.Float x) (.Float y)) = .ok (.Float (floatMod x y)) vm) ∧
    (∀ a b : I32,
      applyDiv (.Int a) (.Int b) ≠ .error .typeMismatch ∧
      applyMod (.Int a) (.Int b) ≠ .error .typeMismatch) ∧
    (∀ x y : F32,
      applyDiv (.Float x) (.Float y) ≠ .error .typeMismatch ∧
      applyMod (.Float x) (.Float y) ≠ .error .typeMismatch) := by
  refine ⟨?_, ?_, ?_, ?_, ?_⟩
  · intro fuel vm a
    constructor <;>
      simp [eval, norm_pair, deref_var_ref, deref_object_member, reduceOp_literal,
        Eval.is_an_operator, applyDiv, applyMod, Res.bind]
  · intro fuel vm a b hb
    constructor <;>
      simp [eval, norm_pair, deref_var_ref, deref_object_member, reduceOp_literal,
        Eval.is_an_operator, applyDiv, applyMod, Res.bind, hb]
  · intro fuel vm x y
    constructor <;>
      simp [eval, norm_pair, deref_var_ref, deref_object_member, reduceOp_literal,
        Eval.is_an_operator, applyDiv, applyMod, Res.bind]
  · intro a b
    by_cases hb : b = 0 <;> constructor <;> simp [applyDiv, applyMod, hb]
  · intro x y
    constructor <;> simp [applyDiv, applyMod]

theorem c10_division_by_zero_witness :
    eval 1 vmRC (.Div (.Int 7) (.Int 0)) = .err .divideByZero vmRC ∧
      eval 1 vmRC (.Div (.Int 7) (.Int 2)) = .ok (.Int ((7 : Int).tdiv 2)) vmRC ∧
      eval 1 vmRC (.Mod (.Int 7) (.Int 2)) = .ok (.Int ((7 : Int).tmod 2)) vmRC ∧
      applyDiv (.Int 1) (.Int 0) ≠ .error .typeMismatch :=
  ⟨(c10_division_by_zero.1 0 vmRC 7).1,
   (c10_division_by_zero.2.1 0 vmRC 7 2 (by decide)).1,
   (c10_division_by_zero.2.1 0 vmRC 7 2 (by decide)).2,
   (c10_division_by_zero.2.2.2.1 1 0).1⟩

theorem deref_var_ref_as_eval (v : Value) (g : List (Str × Value)) :
    deref_var_ref (Value.as_eval v) g = .ok (Value.as_eval v) := by
  cases v <;> simp [Value.as_eval, deref_var_ref]

theorem deref_member_as_eval (v : Value) (o : List (Nat × Object)) (g : List (Str × Value)) :
    deref_object_member (Value.as_eval v) o g = .ok (Value.as_eval v) := by
  cases v <;> simp [Value.as_eval, deref_object_member]

theorem deref_var_ref_hit (x : Str) (v : Value) (g : List (Str × Value))
    (h : alFind g x = some v) : deref_var_ref (.VarRef x) g = .ok (Value.as_eval v) := by
  simp [deref_var_ref, h]

theorem norm_pair_varref_left (x : Str) (v : Value) (r : Eval) (o : List (Nat × Object))
    (g : List (Str × Value)) (h : alFind g x = some v) :
    norm_pair (.VarRef x) r o g = norm_pair (Value.as_eval v) r o g := by
  simp only [norm_pair, deref_var_ref_hit x v g h, deref_var_ref_as_eval]

theorem norm_pair_varref_right (x : Str) (v : Value) (l : Eval) (o : List (Nat × Object))
    (g : List (Str × Value)) (h : alFind g x = some v) :
    norm_pair l (.VarRef x) o g = norm_pair l (Value.as_eval v) o g := by
  simp only [norm_pair, deref_var_ref_hit x v g h, deref_var_ref_as_eval]

/-- **C2 counterexample.**  In a machine whose active local frame binds
`x` to 10 while the global mapping binds `x` to 2, the variable's current
value — resolved local-frame-first, as the second conjunct shows — is 10,
so the claimed normalization of `x + 1` would produce 11; the code
produces 3, because operator-operand normalization passes only
`global_variables` to `deref_var_ref`. -/
theorem c2_operand_normalization_skips_local :
    eval 5 vmC2 (.Add (.VarRef nx) (.Int 1)) = .ok (.Int 3) vmC2 ∧
      eval 5 vmC2 (.VarRef nx) = .ok (.Int 10) vmC2 :=
  ⟨rfl, rfl⟩

/-- **C2 amended.**  Operand normalization of a bare variable reference
in a binary or unary operator expression substitutes the value found in
the global mapping only: when the name is globally bound the operator
evaluates as if the global value's literal form stood in the operand's
place (regardless of any local binding), and when the name is absent from
the global mapping the normalization panics with the unknown-variable
`unwrap` even if a local binding exists. -/
theorem c2_operand_normalized_from_globals :
    (∀ (fuel : Nat) (vm : VirtualMachine) (x : Str) (v : Value) (r : Eval),
      alFind vm.global_variables x = some v →
      eval (fuel + 1) vm (.Add (.VarRef x) r) = eval (fuel + 1) vm (.Add (Value.as_eval v) r) ∧
      eval (fuel + 1) vm (.Add r (.VarRef x)) = eval (fuel + 1) vm (.Add r (Value.as_eval v)) ∧
      eval (fuel + 1) vm (.Not (.VarRef x)) = eval (fuel + 1) vm (.Not (Value.as_eval v))) ∧
    (∀ (fuel : Nat) (vm : VirtualMachine) (x : Str) (r : Eval),
      alFind vm.global_variables x = none →
      eval (fuel + 1) vm (.Add (.VarRef x) r) = .err .unknownVariable vm) := by
  constructor
  · intro fuel vm x v r h
    refine ⟨?_, ?_, ?_⟩
    · simp only [eval]
      rw [norm_pair_varref_left x v r vm.objects vm.global_variables h]
    · simp only [eval]
      rw [norm_pair_varref_right x v r vm.objects vm.global_variables h]
    · simp only [eval, deref_var_ref_hit x v vm.global_variables h, deref_var_ref_as_eval]
  · intro fuel vm x r h
    simp [eval, norm_pair, deref_var_ref, h]

theorem c2_operand_normalized_from_globals_witness :
    (eval 5 vmC2 (.Add (.VarRef nx) (.Int 1)) =
        eval 5 vmC2 (.Add (Value.as_eval (.Int 2)) (.Int 1)) ∧
      eval 5 vmC2 (.Add (.Int 1) (.VarRef nx)) =
        eval 5 vmC2 (.Add (.Int 1) (Value.as_eval (.Int 2))) ∧
      eval 5 vmC2 (.Not (.VarRef nx)) = eval 5 vmC2 (.Not (Value.as_eval (.Int 2)))) ∧
      eval 5 vmRC (.Add (.VarRef nx) (.Int 1)) = .err .unknownVariable vmRC :=
  ⟨c2_operand_normalized_from_globals.1 4 vmC2 nx (.Int 2) (.Int 1) rfl,
   c2_operand_normalized_from_globals.2 4 vmRC nx (.Int 1) rfl⟩

/-- **C3 counterexample.**  `vmC3`'s registry holds a variadic defined
function of one declared parameter (minimum required count 0 by
`minimum_args_len`, but the declared parameter still needs an argument).
Calling it with zero arguments is below the declared parameter count, yet
the call does not fail with `ArityMismatch`: the arity check skips every
variadic callable, invocation proceeds, and parameter binding aborts with
the slice-index host panic `args[0]`. -/
theorem c3_variadic_underapplication_not_arity :
    (eval 10 vmC3 (.FnCall nf [])).errKind = some .indexOutOfBounds ∧
      (eval 10 vmC3 (.FnCall nf [])).errKind ≠ some .arityMismatch :=
  ⟨by decide, by decide⟩

/-- **C3 amended.**  A call of a non-variadic callable with an argument
count different from the declared parameter count fails with
`ArityMismatch` before invocation (the state shows only the registry
removal of the lookup had happened — no argument was evaluated, no frame
pushed), in expression and in statement position alike.  For a variadic
callable no minimum is enforced at the check: a variadic defined function
with at least one declared parameter, called with no arguments, passes
the arity check and the invocation itself aborts with the out-of-bounds
argument access during parameter binding. -/
theorem c3_arity_check :
    (∀ (fuel : Nat) (vm : VirtualMachine) (name : Str) (f : DefinedFunction)
      (args : List Eval),
      alFind vm.functions name = some f → f.has_variadic = false →
      f.args.length ≠ args.length →
      eval (fuel + 1) vm (.FnCall name args) =
        .err .arityMismatch { vm with functions := alRemove vm.functions name } ∧
      single_run (fuel + 1) vm (Node.FnCall name args) =
        .err .arityMismatch { vm with functions := alRemove vm.functions name }) ∧
    (∀ (fuel : Nat) (vm : VirtualMachine) (name : Str) (f : DefinedFunction)
      (p : Str) (ps : List Str),
      alFind vm.functions name = some f → f.has_variadic = true → f.args = p :: ps →
      (eval (fuel + 3) vm (.FnCall name [])).errKind = some .indexOutOfBounds) := by
  constructor
  · intro fuel vm name f args hfind hv hne
    constructor <;>
      simp [eval, single_run, hfind, DefinedFunction.args_len, DefinedFunction.is_variadic,
        hv, bne_iff_ne, hne]
  · intro fuel vm name f p ps hfind hv hargs
    cases hl : vm.local_frame with
    | none =>
      simp [eval, hfind, DefinedFunction.args_len, DefinedFunction.is_variadic, hv,
        callFn, hl, hargs, bindParams, Res.bind, Res.errKind]
    | some L =>
      simp [eval, hfind, DefinedFunction.args_len, DefinedFunction.is_variadic, hv,
        callFn, hl, hargs, bindParams, Res.bind, Res.errKind]

def fPlain : DefinedFunction := { name := nf, args := [na], body := [], has_variadic := false }

def vmC3b : VirtualMachine := { vmRC with functions := [(nf, fPlain)] }

theorem c3_arity_check_witness :
    (eval 3 vmC3b (.FnCall nf []) =
        .err .arityMismatch { vmC3b with functions := alRemove vmC3b.functions nf } ∧
      single_run 3 vmC3b (Node.FnCall nf []) =
        .err .arityMismatch { vmC3b with functions := alRemove vmC3b.functions nf }) ∧
      (eval 3 vmC3 (.FnCall nf [])).errKind = some .indexOutOfBounds :=
  ⟨c3_arity_check.1 2 vmC3b nf fPlain [] rfl rfl (by decide),
   c3_arity_check.2 0 vmC3 nf fVariadic na [] rfl rfl rfl⟩

/-- **C4.**  The call protocol removes the callable from the registry for
the whole invocation and reinserts it only after the call returns.
Consequently a defined function whose body calls its own name — in
statement position (first conjunct) or in expression position inside its
`Return` (second conjunct) — fails with `UnknownFunction`, because the
inner lookup runs against the registry with the entry removed; and every
call that does return a value ends with the callable reinserted under its
name (third conjunct). -/
theorem c4_registry_removal_blocks_recursion :
    (∀ (fuel : Nat) (vm : VirtualMachine) (name : Str) (df : DefinedFunction)
      (rest : List Node),
      keysNodup vm.functions →
      alFind vm.functions name = some df → df.args = [] → df.has_variadic = false →
      df.body = Node.FnCall name [] :: rest →
      (eval (fuel + 4) vm (.FnCall name [])).errKind = some .unknownFunction) ∧
    (∀ (fuel : Nat) (vm : VirtualMachine) (name : Str) (df : DefinedFunction),
      keysNodup vm.functions →
      alFind vm.functions name = some df → df.args = [] → df.has_variadic = false →
      df.body = [Node.Return (.FnCall name [])] →
      (eval (fuel + 4) vm (.FnCall name [])).errKind = some .unknownFunction) ∧
    (∀ (fuel : Nat) (vm : VirtualMachine) (name : Str) (f : DefinedFunction)
      (args : List Eval) (v : Value) (s : VirtualMachine),
      alFind vm.functions name = some f →
      eval (fuel + 1) vm (.FnCall name args) = .ok v s →
      alFind s.functions name = some f) := by
  refine ⟨?_, ?_, ?_⟩
  · intro fuel vm name df rest hnd hfind hargs hv hbody
    have hrm : alFind (alRemove vm.functions name) name = none :=
      alFind_alRemove_self _ _ hnd
    cases hl : vm.local_frame with
    | none =>
      simp [eval, hfind, DefinedFunction.args_len, DefinedFunction.is_variadic, hv, hargs,
        callFn, hl, bindParams, hbody, runBody, single_run, hrm, Res.bind, Res.errKind]
    | some L =>
      simp [eval, hfind, DefinedFunction.args_len, DefinedFunction.is_variadic, hv, hargs,
        callFn, hl, bindParams, hbody, runBody, single_run, hrm, Res.bind, Res.errKind]
  · intro fuel vm name df hnd hfind hargs hv hbody
    have hrm : alFind (alRemove vm.functions name) name = none :=
      alFind_alRemove_self _ _ hnd
    cases hl : vm.local_frame with
    | none =>
      simp [eval, hfind, DefinedFunction.args_len, DefinedFunction.is_variadic, hv, hargs,
        callFn, hl, bindParams, hbody, runBody, hrm, Res.bind, Res.errKind]
    | some L =>
      simp [eval, hfind, DefinedFunction.args_len, DefinedFunction.is_variadic, hv, hargs,
        callFn, hl, bindParams, hbody, runBody, hrm, Res.bind, Res.errKind]
  · intro fuel vm name f args v s hfind h
    simp only [eval, hfind] at h
    split at h
    · simp at h
    · cases hc : callFn fuel { vm with functions := alRemove vm.functions name } f args with
      | err e s2 => rw [hc] at h; simp [Res.bind] at h
      | ok ret vm2 =>
        rw [hc] at h
        simp only [Res.bind] at h
        cases ret with
        | none => simp at h
        | some v' =>
          cases h
          simpa using alFind_alInsert_self vm2.functions name f

def fRec : DefinedFunction :=
  { name := nf, args := [], body := [Node.FnCall nf []], has_variadic := false }

def fRet : DefinedFunction :=
  { name := nf, args := [], body := [Node.Return (.FnCall nf [])], has_variadic := false }

def fOk : DefinedFunction :=
  { name := nf, args := [], body := [Node.Return (.Int 42)], has_variadic := false }

def vmC4 : VirtualMachine := { vmRC with functions := [(nf, fRec)] }

def vmC4b : VirtualMachine := { vmRC with functions := [(nf, fRet)] }

def vmC4c : VirtualMachine := { vmRC with functions := [(nf, fOk)] }

theorem c4_registry_removal_blocks_recursion_witness :
    (eval 10 vmC4 (.FnCall nf [])).errKind = some .unknownFunction ∧
      (eval 10 vmC4b (.FnCall nf [])).errKind = some .unknownFunction ∧
      alFind (eval 5 vmC4c (.FnCall nf [])).state.functions nf = some fOk :=
  ⟨c4_registry_removal_blocks_recursion.1 6 vmC4 nf fRec [] (by decide) rfl rfl rfl rfl,
   c4_registry_removal_blocks_recursion.2.1 6 vmC4b nf fRet (by decide) rfl rfl rfl rfl,
   c4_registry_removal_blocks_recursion.2.2 4 vmC4c nf fOk [] (.Int 42)
     (eval 5 vmC4c (.FnCall nf [])).state rfl rfl⟩

/-- **C6.**  The invocation protocol of a defined function: the caller's
active local frame is pushed and a fresh empty frame is current before
any argument expression is evaluated, so an argument that references a
caller-local-only name fails with the unknown-variable panic (first
conjunct); an argument can observe global state (second conjunct, which
also shows the caller's frame restored by the exit pop — the final state
equals the entry state except for the registry round-trip); an argument
can observe a parameter of the same call bound before it (third
conjunct); and when no frame was active at entry none is active after the
exit pop (fourth conjunct). -/
theorem c6_call_frame_protocol :
    (∀ (fuel : Nat) (vm : VirtualMachine) (L : List (Str × Value)) (x p : Str) (v : Value)
      (name : Str) (f : DefinedFunction),
      vm.local_frame = some L → alFind L x = some v → alFind vm.global_variables x = none →
      alFind vm.functions name = some f → f.args = [p] → f.has_variadic = false →
      (eval (fuel + 4) vm (.FnCall name [.VarRef x])).errKind = some .unknownVariable) ∧
    (∀ (fuel : Nat) (vm : VirtualMachine) (L : List (Str × Value)) (x p : Str) (gv : Value)
      (name : Str) (f : DefinedFunction),
      vm.local_frame = some L → alFind vm.global_variables x = some gv →
      alFind vm.functions name = some f → f.args = [p] → f.has_variadic = false →
      f.body = [Node.Return (.VarRef p)] →
      eval (fuel + 5) vm (.FnCall name [.VarRef x]) =
        .ok gv { vm with functions := alInsert (alRemove vm.functions name) name f }) ∧
    (∀ (fuel : Nat) (vm : VirtualMachine) (L : List (Str × Value)) (p q : Str)
      (name : Str) (f : DefinedFunction),
      vm.local_frame = some L → p ≠ q →
      alFind vm.functions name = some f → f.args = [p, q] → f.has_variadic = false →
      f.body = [Node.Return (.VarRef q)] →
      eval (fuel + 6) vm (.FnCall name [.Int 7, .VarRef p]) =
        .ok (.Int 7) { vm with functions := alInsert (alRemove vm.functions name) name f }) ∧
    (∀ (fuel : Nat) (vm : VirtualMachine) (x p : Str) (gv : Value)
      (name : Str) (f : DefinedFunction),
      vm.local_frame = none → vm.locals = [] →
      alFind vm.global_variables x = some gv →
      alFind vm.functions name = some f → f.args = [p] → f.has_variadic = false →
      f.body = [Node.Return (.VarRef p)] →
      eval (fuel + 5) vm (.FnCall name [.VarRef x]) =
        .ok gv { vm with functions := alInsert (alRemove vm.functions name) name f }) := by
  refine ⟨?_, ?_, ?_, ?_⟩
  · intro fuel vm L x p v name f hl hloc hglob hfind hargs hv
    simp [eval, hfind, DefinedFunction.args_len, DefinedFunction.is_variadic, hv, hargs,
      callFn, hl, bindParams, alFind, hglob, Res.bind, Res.errKind]
  · intro fuel vm L x p gv name f hl hglob hfind hargs hv hbody
    simp [eval, hfind, DefinedFunction.args_len, DefinedFunction.is_variadic, hv, hargs,
      hbody, callFn, hl, bindParams, runBody, alFind, alInsert, hglob, Res.bind]
  · intro fuel vm L p q name f hl hpq hfind hargs hv hbody
    simp [eval, hfind, DefinedFunction.args_len, DefinedFunction.is_variadic, hv, hargs,
      hbody, callFn, hl, bindParams, runBody, alFind, alInsert, hpq, Res.bind]
  · intro fuel vm x p gv name f hl hlocals hglob hfind hargs hv hbody
    simp [eval, hfind, DefinedFunction.args_len, DefinedFunction.is_variadic, hv, hargs,
      hbody, callFn, hl, hlocals, bindParams, runBody, alFind, alInsert, hglob, Res.bind]

def fId : DefinedFunction :=
  { name := nf, args := [np], body := [Node.Return (.VarRef np)], has_variadic := false }

def fSecond : DefinedFunction :=
  { name := nf, args := [np, nq], body := [Node.Return (.VarRef nq)], has_variadic := false }

/-- A machine with an active local frame binding `y` (locally only) and a
global `x`, whose registry holds `fId`. -/
def vmC6 : VirtualMachine :=
  { vmRC with
    local_frame := some [(ny, .Int 9)]
    global_variables := [(nx, .Int 3)]
    functions := [(nf, fId)] }

def vmC6b : VirtualMachine := { vmC6 with functions := [(nf, fSecond)] }

def vmC6c : VirtualMachine :=
  { vmRC with global_variables := [(nx, .Int 3)], functions := [(nf, fId)] }

theorem c6_call_frame_protocol_witness :
    (eval 10 vmC6 (.FnCall nf [.VarRef ny])).errKind = some .unknownVariable ∧
      eval 10 vmC6 (.FnCall nf [.VarRef nx]) =
        .ok (.Int 3) { vmC6 with functions := alInsert (alRemove vmC6.functions nf) nf fId } ∧
      eval 10 vmC6b (.FnCall nf [.Int 7, .VarRef np]) =
        .ok (.Int 7)
          { vmC6b with functions := alInsert (alRemove vmC6b.functions nf) nf fSecond } ∧
      eval 10 vmC6c (.FnCall nf [.VarRef nx]) =
        .ok (.Int 3) { vmC6c with functions := alInsert (alRemove vmC6c.functions nf) nf fId } :=
  ⟨c6_call_frame_protocol.1 6 vmC6 [(ny, .Int 9)] ny np (.Int 9) nf fId rfl rfl rfl rfl rfl
     rfl,
   c6_call_frame_protocol.2.1 5 vmC6 [(ny, .Int 9)] nx np (.Int 3) nf fId rfl rfl rfl rfl
     rfl rfl,
   c6_call_frame_protocol.2.2.1 4 vmC6b [(ny, .Int 9)] np nq nf fSecond rfl (by decide) rfl
     rfl rfl rfl,
   c6_call_frame_protocol.2.2.2 5 vmC6c nx np (.Int 3) nf fId rfl rfl rfl rfl rfl rfl rfl⟩

theorem searchAux_succ (l : List (Nat × Nat)) (key off : Nat) :
    searchAux l key (off + 1) = (searchAux l key off).bump := by
  induction l generalizing off with
  | nil => simp [searchAux, SearchResult.bump]
  | cons p rest ih =>
    obtain ⟨k, c⟩ := p
    by_cases h1 : key < k
    · simp [searchAux, h1, SearchResult.bump]
    · by_cases h2 : key = k
      · simp [searchAux, h1, h2, SearchResult.bump]
      · simp [searchAux, h1, h2, ih]

theorem searchAux_found_get (l : List (Nat × Nat)) (key i : Nat)
    (h : searchAux l key 0 = .found i) : ∃ c, l[i]? = some (key, c) := by
  induction l generalizing i with
  | nil => simp [searchAux] at h
  | cons p rest ih =>
    obtain ⟨k, c⟩ := p
    by_cases h1 : key < k
    · simp [searchAux, h1] at h
    · by_cases h2 : key = k
      · simp only [searchAux, if_neg h1, if_pos h2] at h
        cases h
        exact ⟨c, by simp [h2]⟩
      · simp only [searchAux, if_neg h1, if_neg h2, searchAux_succ] at h
        cases hs : searchAux rest key 0 with
        | found j =>
          rw [hs] at h
          simp only [SearchResult.bump] at h
          cases h
          obtain ⟨c', hc'⟩ := ih j hs
          exact ⟨c', by simpa using hc'⟩
        | notFound j =>
          rw [hs] at h
          simp [SearchResult.bump] at h

theorem mem_of_mem_insertIdx {α : Type} {x y : α} :
    ∀ {l : List α} {i : Nat}, x ∈ l.insertIdx i y → x = y ∨ x ∈ l := by
  intro l
  induction l with
  | nil =>
    intro i h
    cases i with
    | zero => simp at h; exact Or.inl h
    | succ j => simp at h
  | cons a rest ih =>
    intro i h
    cases i with
    | zero =>
      simp only [List.insertIdx_zero, List.mem_cons] at h
      simpa using h
    | succ j =>
      simp only [List.insertIdx_succ_cons, List.mem_cons] at h
      rcases h with h | h
      · exact Or.inr (by simp [h])
      · rcases ih h with h' | h'
        · exact Or.inl h'
        · exact Or.inr (by simp [h'])

theorem tableSorted_set (l : List (Nat × Nat)) (i k c c' : Nat)
    (hs : TableSorted l) (hget : l[i]? = some (k, c)) :
    TableSorted (l.set i (k, c')) := by
  induction l generalizing i with
  | nil => simp [TableSorted]
  | cons a rest ih =>
    cases i with
    | zero =>
      simp only [List.getElem?_cons_zero, Option.some.injEq] at hget
      subst hget
      simp only [List.set_cons_zero]
      simp only [TableSorted, List.pairwise_cons] at hs ⊢
      exact ⟨fun x hx => hs.1 x hx, hs.2⟩
    | succ j =>
      simp only [List.getElem?_cons_succ] at hget
      simp only [List.set_cons_succ]
      simp only [TableSorted, List.pairwise_cons] at hs ⊢
      refine ⟨fun x hx => ?_, ih j hs.2 hget⟩
      rcases List.mem_or_eq_of_mem_set hx with hx' | hx'
      · exact hs.1 x hx'
      · subst hx'
        exact hs.1 (k, c) (List.getElem?_mem hget)

theorem tableSorted_insert_notFound (l : List (Nat × Nat)) (key i : Nat)
    (hs : TableSorted l) (h : searchAux l key 0 = .notFound i) :
    TableSorted (l.insertIdx i (key, 1)) := by
  induction l generalizing i with
  | nil =>
    simp only [searchAux] at h
    cases h
    simp [TableSorted]
  | cons p rest ih =>
    obtain ⟨k, c⟩ := p
    by_cases h1 : key < k
    · simp only [searchAux, if_pos h1] at h
      cases h
      simp only [List.insertIdx_zero]
      refine List.pairwise_cons.mpr ⟨fun x hx => ?_, hs⟩
      rcases List.mem_cons.mp hx with hx | hx
      · subst hx; exact h1
      · exact lt_trans h1 ((List.pairwise_cons.mp hs).1 x hx)
    · by_cases h2 : key = k
      · simp [searchAux, h1, h2] at h
      · simp only [searchAux, if_neg h1, if_neg h2, searchAux_succ] at h
        cases hsr : searchAux rest key 0 with
        | found j => rw [hsr] at h; simp [SearchResult.bump] at h
        | notFound j =>
          rw [hsr] at h
          simp only [SearchResult.bump] at h
          cases h
          simp only [List.insertIdx_succ_cons]
          simp only [TableSorted, List.pairwise_cons] at hs ⊢
          refine ⟨fun x hx => ?_, ih j hs.2 hsr⟩
          rcases mem_of_mem_insertIdx hx with hx' | hx'
          · subst hx'
            show k < key
            omega
          · exact hs.1 x hx'

theorem incTable_sorted (tbl : List (Nat × Nat)) (id : Nat) (hs : TableSorted tbl) :
    TableSorted (incTable tbl id) := by
  unfold incTable
  split
  next i heq =>
    split
    next k c hget => exact tableSorted_set tbl i k c (c + 1) hs hget
    next hget => exact hs
  next i heq => exact tableSorted_insert_notFound tbl id i hs heq

theorem decTable_sorted (tbl t : List (Nat × Nat)) (id : Nat) (hs : TableSorted tbl)
    (h : decTable tbl id = .ok t) : TableSorted t := by
  unfold decTable at h
  split at h
  next i heq =>
    split at h
    next k c hget =>
      split at h
      · simp at h
      · cases h
        exact tableSorted_set tbl i k c (c - 1) hs hget
    next hget => simp at h
  next i heq => simp at h

theorem tableSorted_eraseIdx (l : List (Nat × Nat)) (i : Nat) (hs : TableSorted l) :
    TableSorted (l.eraseIdx i) :=
  List.Pairwise.sublist (List.eraseIdx_sublist l i) hs

theorem inc_use_count_sorted (vm : VirtualMachine) (val : Value)
    (hs : TableSorted vm.objects_in_use) :
    TableSorted (inc_use_count vm val).objects_in_use := by
  cases val <;> simp only [inc_use_count] <;> try exact hs
  exact incTable_sorted vm.objects_in_use _ hs

theorem dec_use_count_sorted (vm : VirtualMachine) (val : Value)
    (hs : TableSorted vm.objects_in_use) :
    TableSorted (dec_use_count vm val).state.objects_in_use := by
  cases val <;> simp only [dec_use_count, Res.state] <;> try exact hs
  case Object id =>
    cases hd : decTable vm.objects_in_use id with
    | ok t => simpa [Res.state] using decTable_sorted vm.objects_in_use t id hs hd
    | error k => simpa [Res.state] using hs

theorem reference_count_sorted (vm : VirtualMachine) (n : Str)
    (hs : TableSorted vm.objects_in_use) :
    TableSorted (reference_count vm n).state.objects_in_use := by
  unfold reference_count
  split
  · simpa [Res.state] using hs
  · split
    next i heq =>
      split
      · simpa [Res.state] using hs
      next k c hget =>
        split
        · simpa [Res.state] using hs
        · by_cases hc' : c - 1 = 0
          · simpa [hc', Res.state] using tableSorted_eraseIdx vm.objects_in_use i hs
          · simpa [hc', Res.state] using tableSorted_set vm.objects_in_use i k c (c - 1) hs hget
    next i heq => simpa [Res.state] using hs
  · simpa [Res.state] using hs

theorem reference_count_loop_sorted (names : List Str) (vm : VirtualMachine)
    (hs : TableSorted vm.objects_in_use) :
    TableSorted (reference_count_loop names vm).state.objects_in_use := by
  induction names generalizing vm with
  | nil => simpa [reference_count_loop, Res.state] using hs
  | cons n rest ih =>
    simp only [reference_count_loop]
    cases hr : reference_count vm n with
    | ok u s =>
      have hse := reference_count_sorted vm n hs
      rw [hr] at hse
      simpa [Res.bind, Res.state] using ih s hse
    | err e s =>
      have hse := reference_count_sorted vm n hs
      rw [hr] at hse
      simpa [Res.bind, Res.state] using hse

/-- **C9.**  The tracker `objects_in_use` stays strictly sorted in
ascending order of object id — which forces at most one entry per id, the
final conjunct — across every operation that touches it: `inc_use_count`
(a hit is bumped in place, a miss inserts a count-1 entry exactly at the
binary-search insertion point), `dec_use_count`, the per-name collection
step `reference_count` (in-place decrement or entry removal), and the
batch collection `reference_count_vec`; whatever the outcome, the state
carried by the result keeps the invariant. -/
theorem c9_tracker_sorted_invariant :
    (∀ (vm : VirtualMachine) (val : Value), TableSorted vm.objects_in_use →
      TableSorted (inc_use_count vm val).objects_in_use) ∧
    (∀ (vm : VirtualMachine) (val : Value), TableSorted vm.objects_in_use →
      TableSorted (dec_use_count vm val).state.objects_in_use) ∧
    (∀ (vm : VirtualMachine) (n : Str), TableSorted vm.objects_in_use →
      TableSorted (reference_count vm n).state.objects_in_use) ∧
    (∀ (vm : VirtualMachine) (names : List Str), TableSorted vm.objects_in_use →
      TableSorted (reference_count_vec vm names).state.objects_in_use) ∧
    (∀ tbl : List (Nat × Nat), TableSorted tbl → keysNodup tbl) := by
  refine ⟨inc_use_count_sorted, dec_use_count_sorted, reference_count_sorted, ?_, ?_⟩
  · intro vm names hs
    simp only [reference_count_vec]
    cases hr : reference_count_loop names vm with
    | ok u s =>
      have hse := reference_count_loop_sorted names vm hs
      rw [hr] at hse
      simpa [Res.bind, Res.state] using hse
    | err e s =>
      have hse := reference_count_loop_sorted names vm hs
      rw [hr] at hse
      simpa [Res.bind, Res.state] using hse
  · intro tbl hs
    have hne : tbl.Pairwise (fun a b => a.1 ≠ b.1) :=
      hs.imp fun h => Nat.ne_of_lt h
    simpa [keysNodup, List.Nodup, List.pairwise_map] using hne

/-- A machine whose single global binds `x` to the tracked object 4. -/
def vmW9 : VirtualMachine := { vmW8 with global_variables := [(nx, .Object 4)] }

theorem c9_tracker_sorted_invariant_witness :
    TableSorted (inc_use_count vmW8 (.Object 2)).objects_in_use ∧
      TableSorted (dec_use_count vmW8 (.Object 4)).state.objects_in_use ∧
      TableSorted (reference_count vmW9 nx).state.objects_in_use ∧
      TableSorted (reference_count_vec vmW8 []).state.objects_in_use ∧
      keysNodup ([(4, 2), (7, 1)] : List (Nat × Nat)) :=
  ⟨c9_tracker_sorted_invariant.1 vmW8 (.Object 2) (by decide),
   c9_tracker_sorted_invariant.2.1 vmW8 (.Object 4) (by decide),
   c9_tracker_sorted_invariant.2.2.1 vmW9 nx (by decide),
   c9_tracker_sorted_invariant.2.2.2.1 vmW8 [] (by decide),
   c9_tracker_sorted_invariant.2.2.2.2 [(4, 2), (7, 1)] (by decide)⟩

theorem deref_member_bool (b : Bool) (o : List (Nat × Object)) (g : List (Str × Value)) :
    deref_object_member (.Bool b) o g = .ok (.Bool b) := by
  simp [deref_object_member]

theorem varref_err_global_none (fuel : Nat) (vm s : VirtualMachine) (x : Str) (k : Err)
    (h : eval fuel vm (.VarRef x) = .err k s) (hk : k ≠ .outOfFuel) :
    alFind vm.global_variables x = none := by
  cases fuel with
  | zero => simp [eval] at h; exact absurd h.1.symm hk
  | succ f =>
    simp only [eval] at h
    cases hl : vm.local_frame with
    | some loc =>
      simp only [hl] at h
      cases hloc : alFind loc x with
      | some v => simp only [hloc] at h; simp at h
      | none =>
        simp only [hloc] at h
        cases hg : alFind vm.global_variables x with
        | some v => simp only [hg] at h; simp at h
        | none => rfl
    | none =>
      simp only [hl] at h
      cases hg : alFind vm.global_variables x with
      | some v => simp only [hg] at h; simp at h
      | none => rfl

theorem deref_member_ok_eval (t : Eval) (fld : Str) (vm : VirtualMachine) (e2 : Eval) (n : Nat)
    (h : deref_object_member (.GetMember t fld) vm.objects vm.global_variables = .ok e2) :
    ∃ v, eval (n + 2) vm (.GetMember t fld) = .ok v vm := by
  cases t
  case Int id =>
    simp only [deref_object_member] at h
    cases ho : alFind vm.objects (intToUsize id) with
    | none => simp only [ho] at h; simp at h
    | some obj =>
      simp only [ho] at h
      cases hf : alFind obj.fields fld with
      | none => simp only [hf] at h; simp at h
      | some v =>
        refine ⟨v, ?_⟩
        simp [eval, Res.bind, getMemberAt, ho, hf]
  case String sname =>
    simp only [deref_object_member] at h
    cases hv : alFind vm.global_variables sname with
    | none => simp only [hv] at h; simp at h
    | some val =>
      simp only [hv] at h
      cases val
      case Object id =>
        cases ho : alFind vm.objects id with
        | none => simp only [ho] at h; simp at h
        | some obj =>
          simp only [ho] at h
          cases hf : alFind obj.fields fld with
          | none => simp only [hf] at h; simp at h
          | some v =>
            refine ⟨v, ?_⟩
            simp [eval, Res.bind, getMemberAt, hv, ho, hf]
      all_goals simp at h
  all_goals simp [deref_object_member] at h

theorem applyOr_ok (a b : Eval) (w : Value) (h : applyOr a b = .ok w) :
    ∃ p q : Bool, w = .Bool (p || q) := by
  cases a <;> cases b <;> simp [applyOr] at h
  exact ⟨_, _, h.symm⟩

theorem applyAnd_ok (a b : Eval) (w : Value) (h : applyAnd a b = .ok w) :
    ∃ p q : Bool, w = .Bool (p && q) := by
  cases a <;> cases b <;> simp [applyAnd] at h
  exact ⟨_, _, h.symm⟩

/-- **C5.**  No short-circuit evaluation of the boolean connectives: for
every expression whose evaluation fails with a genuine error (not the
embedding's fuel bound), `or(Bool(true), e)` fails as well — the right
operand is always normalized and, when it is an operator expression,
eagerly evaluated, and a right operand that does not normalize to a
boolean literal fails dispatch — and `or`/`and` are defined only for
`(bool, bool)` operand pairs: every successful evaluation of `Or`/`And`
produces the disjunction/conjunction of two booleans. -/
theorem c5_no_short_circuit :
    (∀ (fuel : Nat) (vm s : VirtualMachine) (e : Eval) (k : Err),
      eval fuel vm e = .err k s → k ≠ .outOfFuel →
      (eval (fuel + 2) vm (.Or (.Bool true) e)).isErr = true) ∧
    (∀ (fuel : Nat) (vm s : VirtualMachine) (l r : Eval) (v : Value),
      eval fuel vm (.Or l r) = .ok v s → ∃ p q : Bool, v = .Bool (p || q)) ∧
    (∀ (fuel : Nat) (vm s : VirtualMachine) (l r : Eval) (v : Value),
      eval fuel vm (.And l r) = .ok v s → ∃ p q : Bool, v = .Bool (p && q)) := by
  refine ⟨?_, ?_, ?_⟩
  · intro fuel vm s e k herr hk
    cases e
    case Int v =>
      cases fuel with
      | zero => simp [eval] at herr; exact absurd herr.1.symm hk
      | succ f => simp [eval] at herr
    case Bool b =>
      cases fuel with
      | zero => simp [eval] at herr; exact absurd herr.1.symm hk
      | succ f => simp [eval] at herr
    case Float x =>
      cases fuel with
      | zero => simp [eval] at herr; exact absurd herr.1.symm hk
      | succ f => simp [eval] at herr
    case String st =>
      cases fuel with
      | zero => simp [eval] at herr; exact absurd herr.1.symm hk
      | succ f => simp [eval] at herr
    case Array es =>
      simp [eval, norm_pair, deref_var_ref, deref_object_member, reduceOp_literal,
        Eval.is_an_operator, applyOr, Res.bind, Res.isErr]
    case Object o =>
      simp [eval, norm_pair, deref_var_ref, deref_object_member, reduceOp_literal,
        Eval.is_an_operator, applyOr, Res.bind, Res.isErr]
    case FnCall nm args =>
      simp [eval, norm_pair, deref_var_ref, deref_object_member, reduceOp_literal,
        Eval.is_an_operator, applyOr, Res.bind, Res.isErr]
    case VarRef x =>
      have hg := varref_err_global_none fuel vm s x k herr hk
      simp [eval, norm_pair, deref_var_ref, hg, Res.isErr]
    case GetMember t fld =>
      cases hdm : deref_object_member (.GetMember t fld) vm.objects vm.global_variables with
      | error k2 =>
        simp [eval, norm_pair, deref_var_ref, deref_member_bool, hdm, Res.isErr]
      | ok e2 =>
        exfalso
        cases fuel with
        | zero => simp [eval] at herr; exact absurd herr.1.symm hk
        | succ f =>
          cases f with
          | zero =>
            simp [eval, Res.bind] at herr
            exact absurd herr.1.symm hk
          | succ n =>
            obtain ⟨v, hv⟩ := deref_member_ok_eval t fld vm e2 n hdm
            have herr2 : eval (n + 2) vm (.GetMember t fld) = .err k s := herr
            rw [hv] at herr2
            simp at herr2
    all_goals
      simp [eval, norm_pair, deref_var_ref, deref_object_member, reduceOp,
        Eval.is_an_operator, herr, Res.bind, Res.isErr]
  · intro fuel vm s l r v h
    cases fuel with
    | zero => simp [eval] at h
    | succ f =>
      simp only [eval] at h
      cases hp : norm_pair l r vm.objects vm.global_variables with
      | error k2 => simp only [hp] at h; simp at h
      | ok pair =>
        obtain ⟨l1, r1⟩ := pair
        simp only [hp, Res.bind] at h
        cases hr1 : reduceOp f vm l1 with
        | err e2 s2 => simp only [hr1, Res.bind] at h; simp at h
        | ok l2 vm1 =>
          simp only [hr1, Res.bind] at h
          cases hr2 : reduceOp f vm1 r1 with
          | err e2 s2 => simp only [hr2, Res.bind] at h; simp at h
          | ok r2 vm2 =>
            simp only [hr2, Res.bind] at h
            cases ha : applyOr l2 r2 with
            | error k2 => simp only [ha] at h; simp at h
            | ok w =>
              simp only [ha] at h
              cases h
              exact applyOr_ok _ _ _ ha
  · intro fuel vm s l r v h
    cases fuel with
    | zero => simp [eval] at h
    | succ f =>
      simp only [eval] at h
      cases hp : norm_pair l r vm.objects vm.global_variables with
      | error k2 => simp only [hp] at h; simp at h
      | ok pair =>
        obtain ⟨l1, r1⟩ := pair
        simp only [hp, Res.bind] at h
        cases hr1 : reduceOp f vm l1 with
        | err e2 s2 => simp only [hr1, Res.bind] at h; simp at h
        | ok l2 vm1 =>
          simp only [hr1, Res.bind] at h
          cases hr2 : reduceOp f vm1 r1 with
          | err e2 s2 => simp only [hr2, Res.bind] at h; simp at h
          | ok r2 vm2 =>
            simp only [hr2, Res.bind] at h
            cases ha : applyAnd l2 r2 with
            | error k2 => simp only [ha] at h; simp at h
            | ok w =>
              simp only [ha] at h
              cases h
              exact applyAnd_ok _ _ _ ha

theorem c5_no_short_circuit_witness :
    (eval 3 vmRC (.Or (.Bool true) (.VarRef nx))).isErr = true ∧
      (∃ p q : Bool, Value.Bool true = .Bool (p || q)) ∧
      (∃ p q : Bool, Value.Bool false = .Bool (p && q)) :=
  ⟨c5_no_short_circuit.1 1 vmRC vmRC (.VarRef nx) .unknownVariable rfl (by decide),
   c5_no_short_circuit.2.1 1 vmRC vmRC (.Bool true) (.Bool false) (.Bool true) rfl,
   c5_no_short_circuit.2.2 1 vmRC vmRC (.Bool true) (.Bool false) (.Bool false) rfl⟩
